import Mathlib

/-!
# Verification of the 2026 US-stock dashboard scoring and persistence logic

Shallow embedding of `src/app.py` (Streamlit dashboard).  Python floats are
modelled as exact rationals (`ℚ`); `dict.get` with optional fields is modelled
with `Option`; Python truthiness of a numeric value `v` (`if v and v > 0`) is
modelled by matching on the `Option` and testing `v ≠ 0`.

Sector names of the source are Chinese strings; Lean identifiers cannot carry
them, so:
  * `Cybersecurity` stands for the source sector 資安,
  * `Semiconductor` stands for 半導體,
  * `Energy` stands for 能源,
and `Mag7`, `NeoCloud` are verbatim.
-/

/-- Sectors of `SECTORS` / `SECTOR_CONFIG` in `src/app.py`. -/
inductive Sector where
  | Mag7
  | Cybersecurity
  | Semiconductor
  | Energy
  | NeoCloud
deriving DecidableEq, Repr

/-- A provider info record: the optional numeric fields of the yfinance
`ticker.info` dictionary that `calculate_2026_score` reads.  An absent key
(or a `None` value) is `none`. -/
structure Info where
  symbol : Option String := none
  forwardPE : Option ℚ := none
  returnOnEquity : Option ℚ := none
  freeCashflow : Option ℚ := none
  grossMargins : Option ℚ := none
  operatingMargins : Option ℚ := none
  revenueGrowth : Option ℚ := none
deriving Repr

/-- The manual-score dictionary passed to `calculate_2026_score`:
`manual_scores.get("Policy", 50)` / `manual_scores.get("Moat", 50)`. -/
structure ManualScores where
  Policy : Option ℚ := none
  Moat : Option ℚ := none
deriving Repr

/-- `sector_avg_data` dictionary; the code reads `get("avg_fwd_pe", 25)`. -/
structure SectorAvgData where
  avg_fwd_pe : Option ℚ := none
deriving Repr

/-- A per-stock weight dictionary with the four mandatory keys that
`calculate_2026_score` indexes (`w["Valuation"]`, ...). -/
structure Weights where
  Valuation : ℚ
  Quality : ℚ
  Growth : ℚ
  MoatPolicy : ℚ
deriving DecidableEq, Repr

/-- The dictionary returned by `calculate_2026_score`. -/
structure ScoreResult where
  Total : ℚ
  Valuation : ℚ
  Quality : ℚ
  Growth : ℚ
  MoatPolicy : ℚ
  Adjustment : ℚ
deriving DecidableEq, Repr

/-- Python's `round(x, 2)` modelled over exact rationals: round `x * 100` to
the nearest integer and divide back.  (Mathlib's `round` is round-half-up;
Python's float `round` is round-half-even — the two differ only on exact
`.005` ties, which none of the claims touch.) -/
def round2 (x : ℚ) : ℚ := (round (x * 100) : ℤ) / 100

/-- Step 1 of `calculate_2026_score` (src/app.py lines 151-159): the
forward-valuation component.  `fwd_pe and fwd_pe > 0` is Python truthiness:
`none` and `some 0` fall through to the default 50. -/
def val_score (sector : Sector) (avg_fwd_pe : ℚ) (forwardPE : Option ℚ) : ℚ :=
  match forwardPE with
  | none => 50
  | some fwd_pe =>
    if fwd_pe ≠ 0 ∧ 0 < fwd_pe then
      let v := max 0 (min 100 (avg_fwd_pe / fwd_pe * 50))
      if sector = Sector.Mag7 ∧ fwd_pe < avg_fwd_pe * 0.9 then
        min 100 (v * 1.2)
      else v
    else 50

/-- Step 2 of `calculate_2026_score` (lines 161-179): the quality component.
Inputs are the already-defaulted numeric values (`info.get(k, 0) or 0`). -/
def qual_score (sector : Sector) (roe fcf gross_margin op_margin : ℚ) : ℚ :=
  match sector with
  | Sector.Mag7 => max 0 (min 100 (roe * 400))
  | Sector.Cybersecurity =>
      let q := max 0 (min 100 (gross_margin * 100))
      if gross_margin > 0.75 then q + 20 else q
  | Sector.Energy =>
      let q : ℚ := if fcf > 0 then 100 else 50
      if fcf < 0 then q - 50 else q
  | Sector.Semiconductor => max 0 (min 100 (op_margin * 300))
  | Sector.NeoCloud => 50

/-- Step 3 of `calculate_2026_score` (lines 181-186): the growth component. -/
def growth_score (sector : Sector) (rev_growth : ℚ) : ℚ :=
  let g0 := max 0 (min 100 (rev_growth * 200))
  let g1 := if sector = Sector.Mag7 ∧ rev_growth > 0.2 then g0 * 1.2 else g0
  if sector = Sector.NeoCloud ∧ rev_growth > 0.4 then 100 else g1

/-- Step 4 of `calculate_2026_score` (lines 188-191): the manual
policy/moat component. -/
def moat_policy_score (manual_scores : ManualScores) : ℚ :=
  (manual_scores.Policy.getD 50 + manual_scores.Moat.getD 50) / 2

/-- Step 6 of `calculate_2026_score` (lines 202-205): the final
penalty/bonus adjustment. -/
def final_adjustment (sector : Sector) (gross_margin fcf : ℚ) : ℚ :=
  let a0 : ℚ := 0
  let a1 := if sector = Sector.Cybersecurity ∧ gross_margin > 0.75 then a0 + 5 else a0
  if (sector = Sector.Energy ∨ sector = Sector.NeoCloud) ∧ fcf < 0 then a1 - 10 else a1

/-- `calculate_2026_score` of `src/app.py` lines 144-216.  A falsy `info`
(`if not info: return None`) is `none`; the function never raises, so the
result type is `Option ScoreResult`. -/
def calculate_2026_score (info : Option Info) (sector : Sector)
    (manual_scores : ManualScores) (sector_avg_data : SectorAvgData)
    (stock_weights : Weights) : Option ScoreResult :=
  match info with
  | none => none
  | some i =>
    let avg_fwd_pe := sector_avg_data.avg_fwd_pe.getD 25
    let v := val_score sector avg_fwd_pe i.forwardPE
    let roe := i.returnOnEquity.getD 0
    let fcf := i.freeCashflow.getD 0
    let gross_margin := i.grossMargins.getD 0
    let op_margin := i.operatingMargins.getD 0
    let q := qual_score sector roe fcf gross_margin op_margin
    let rev_growth := i.revenueGrowth.getD 0
    let g := growth_score sector rev_growth
    let mp := moat_policy_score manual_scores
    let w := stock_weights
    let total_score :=
      v * w.Valuation + q * w.Quality + g * w.Growth + mp * w.MoatPolicy
    let adj := final_adjustment sector gross_margin fcf
    let total_clamped := max 0 (min 100 (total_score + adj))
    some {
      Total := round2 total_clamped
      Valuation := round2 v
      Quality := round2 q
      Growth := round2 g
      MoatPolicy := round2 mp
      Adjustment := adj }

/-- Default weight tables of `SECTOR_CONFIG` (src/app.py lines 63-84). -/
def SECTOR_CONFIG (sector : Sector) : Weights :=
  match sector with
  | Sector.Mag7 =>
      { Valuation := 0.25, Quality := 0.25, Growth := 0.30, MoatPolicy := 0.20 }
  | Sector.Cybersecurity =>
      { Valuation := 0.20, Quality := 0.30, Growth := 0.30, MoatPolicy := 0.20 }
  | Sector.Energy =>
      { Valuation := 0.15, Quality := 0.35, Growth := 0.15, MoatPolicy := 0.35 }
  | Sector.Semiconductor =>
      { Valuation := 0.30, Quality := 0.25, Growth := 0.30, MoatPolicy := 0.15 }
  | Sector.NeoCloud =>
      { Valuation := 0.10, Quality := 0.15, Growth := 0.60, MoatPolicy := 0.15 }

/-- The sector → ticker-list table `SECTORS` (src/app.py lines 52-58), in
Python dict insertion order. -/
def SECTORS : List (Sector × List String) :=
  [ (Sector.Mag7, ["AAPL", "MSFT", "GOOGL", "AMZN", "META", "NVDA", "TSLA"]),
    (Sector.Cybersecurity, ["CRWD", "PANW", "ZS", "OKTA", "FTNT", "S"]),
    (Sector.Semiconductor, ["NVDA", "AMD", "INTC", "TSM", "AVGO"]),
    (Sector.Energy, ["TSLA", "CEG", "FLNC", "TE", "NEE", "ENPH", "EOSE", "VST",
                     "PLUG", "OKLO", "SMR", "BE", "GEV"]),
    (Sector.NeoCloud, ["NBIS", "IREN", "CRWV", "APLD"]) ]

/-! ## Retry loops (`get_stock_data`, `call_gemini_with_retry`) -/

/-- `MAX_RETRIES = 3` (src/app.py line 10). -/
def MAX_RETRIES : ℕ := 3

/-- What one iteration of the `for attempt in range(retry_count)` body of
`get_stock_data` (src/app.py lines 109-134) observes from the environment:
either `ticker.info` comes back with enough data (`info and len(info) > 5`),
or it comes back empty/incomplete, or an exception is raised. -/
inductive FetchOutcome where
  | ok (info : Info)
  | incomplete
  | error
deriving Repr

/-- Is the outcome a successful fetch? -/
def FetchOutcome.isOk : FetchOutcome → Bool
  | FetchOutcome.ok _ => true
  | _ => false

/-- Trace of a retry loop: the returned value, the number of loop iterations
executed, and the durations (seconds) of the `time.sleep` calls made between
successive attempts, in order. -/
structure RetryTrace (α : Type) where
  result : Option α
  attempts_made : ℕ
  sleeps : List ℚ
deriving Repr

/-- The retry loop of `get_stock_data` over a list of per-attempt outcomes
(one entry per loop index up to `retry_count`, so the list has length
`retry_count`, which defaults to 3 at every call site).  On a success the
loop returns immediately; otherwise, if this is not the last attempt, it
sleeps 1 second and continues; on the last attempt it returns `None`.
All exceptions are caught, so the function itself never raises. -/
def get_stock_data : List FetchOutcome → RetryTrace Info
  | [] => { result := none, attempts_made := 0, sleeps := [] }
  | o :: rest =>
    match o with
    | FetchOutcome.ok i => { result := some i, attempts_made := 1, sleeps := [] }
    | _ =>
      match rest with
      | [] => { result := none, attempts_made := 1, sleeps := [] }
      | _ :: _ =>
        let t := get_stock_data rest
        { result := t.result, attempts_made := t.attempts_made + 1,
          sleeps := 1 :: t.sleeps }

/-- The retry loop of `call_gemini_with_retry` (src/app.py lines 222-255),
generic in the type of the parsed insight.  An attempt outcome is `some v`
when `model.generate_content` succeeds and the response parses as JSON `v`,
and `none` when any exception is raised (API error, empty response, JSON
parse error).  `delay` starts at 2 and doubles after each failed non-final
attempt (`delay *= 2`); the failed final attempt returns `None`. -/
def call_gemini_loop {α : Type} (delay : ℚ) : List (Option α) → RetryTrace α
  | [] => { result := none, attempts_made := 0, sleeps := [] }
  | some v :: _ => { result := some v, attempts_made := 1, sleeps := [] }
  | none :: rest =>
    match rest with
    | [] => { result := none, attempts_made := 1, sleeps := [] }
    | _ :: _ =>
      let t := call_gemini_loop (delay * 2) rest
      { result := t.result, attempts_made := t.attempts_made + 1,
        sleeps := delay :: t.sleeps }

/-- `call_gemini_with_retry` with its initial delay of 2 seconds; the
outcome list has length `max_retries` (default `MAX_RETRIES`). -/
def call_gemini_with_retry {α : Type} (outcomes : List (Option α)) : RetryTrace α :=
  call_gemini_loop 2 outcomes

/-! ## Session state and the clear-AI-records handler -/

/-- Pointwise update of a total map keyed by strings
(`d[stock] = value` on a Python dict). -/
def setKey {β : Type} (f : String → β) (k : String) (v : β) : String → β :=
  fun x => if x = k then v else f x

/-- The slice of `st.session_state` that the clear-AI-records button handler
(src/app.py lines 486-500) reads or writes, plus the manual scores it must
leave alone.  Insight payloads are abstracted as strings. -/
structure AppState where
  weights : String → Weights
  ai_adjusted : String → Bool
  stock_insights : List (String × String)
  manual_scores : String → Option ManualScores

/-- The body of the clear-AI-records button handler (src/app.py lines
487-492): for every sector and every stock listed under it (in table order),
reset that stock's weights to the sector default and its `ai_adjusted` flag
to `False`; then empty `stock_insights`.  `manual_scores` is not touched.
(The subsequent `save_to_storage` calls persist these same values.) -/
def clearAIRecords (st : AppState) : AppState :=
  let st1 := SECTORS.foldl (fun acc p =>
    p.2.foldl (fun a stock =>
      { a with weights := setKey a.weights stock (SECTOR_CONFIG p.1),
               ai_adjusted := setKey a.ai_adjusted stock false }) acc) st
  { st1 with stock_insights := [] }

/-! ## JSON persistence (`save_to_storage` / `load_from_storage`)

The data persisted under the key `"manual_scores"` is a Python dict mapping
ticker symbols to `{"Policy": <int>, "Moat": <int>}` dicts (src/app.py lines
426, 430-435).  `save_to_storage` stores `json.dumps(data)` under
`st.session_state["persistent_" + key]` and `load_from_storage` reads it back
with `json.loads` (lines 89-104).  We model `json.dumps` for this exact data
shape (Python's default separators `", "` and `": "`, insertion order, keys
needing no escaping) and `json.loads` restricted to the same shape (including
`json.loads`' whitespace tolerance and its rejection of trailing garbage);
a `none` result of the parser stands for the `json.loads` exception path. -/

/-- One persisted manual-score record `{"Policy": p, "Moat": m}`.  The slider
values are ints. -/
structure ManualEntry where
  Policy : ℤ
  Moat : ℤ
deriving DecidableEq, Repr

/-- The persisted manual-scores mapping: ticker symbol → record, in dict
insertion order. -/
abbrev ManualMap : Type := List (String × ManualEntry)

/-- Decimal digit as a character. -/
def digitChar : ℕ → Char
  | 0 => '0' | 1 => '1' | 2 => '2' | 3 => '3' | 4 => '4'
  | 5 => '5' | 6 => '6' | 7 => '7' | 8 => '8' | _ => '9'

/-- Value of a decimal digit character (0 for non-digits). -/
def digitVal : Char → ℕ
  | '0' => 0 | '1' => 1 | '2' => 2 | '3' => 3 | '4' => 4
  | '5' => 5 | '6' => 6 | '7' => 7 | '8' => 8 | '9' => 9
  | _ => 0

/-- Is the character a decimal digit? -/
def isDigit : Char → Bool
  | '0' | '1' | '2' | '3' | '4' | '5' | '6' | '7' | '8' | '9' => true
  | _ => false

/-- Decimal representation of a natural number, most significant digit
first (what Python's `json.dumps` emits for a nonnegative int). -/
def natDigits (n : ℕ) : List Char :=
  if _h : n < 10 then [digitChar n]
  else natDigits (n / 10) ++ [digitChar (n % 10)]
termination_by n
decreasing_by exact Nat.div_lt_self (by omega) (by omega)

/-- Decimal representation of an integer (`json.dumps` of a Python int). -/
def intChars (n : ℤ) : List Char :=
  if n < 0 then '-' :: natDigits n.natAbs else natDigits n.toNat

/-- A JSON string literal for a key that needs no escaping. -/
def encKey (s : String) : List Char := '"' :: s.data ++ ['"']

/-- `json.dumps` of one `{"Policy": p, "Moat": m}` record. -/
def encRecord (e : ManualEntry) : List Char :=
  '{' :: encKey "Policy" ++ ':' :: ' ' :: intChars e.Policy ++
  ',' :: ' ' :: encKey "Moat" ++ ':' :: ' ' :: intChars e.Moat ++ ['}']

/-- One `"<ticker>": {...}` member of the outer object. -/
def encEntry (p : String × ManualEntry) : List Char :=
  encKey p.1 ++ ':' :: ' ' :: encRecord p.2

/-- The members of the outer object joined with `", "`. -/
def encEntries : List (String × ManualEntry) → List Char
  | [] => []
  | [p] => encEntry p
  | p :: rest => encEntry p ++ ',' :: ' ' :: encEntries rest

/-- `json.dumps` of the whole manual-scores dict. -/
def json_dumps_manual (m : ManualMap) : String :=
  String.mk ('{' :: encEntries m ++ ['}'])

/-- JSON whitespace. -/
def isWsChar (c : Char) : Bool := c = ' ' ∨ c = '\t' ∨ c = '\n' ∨ c = '\r'

/-- Drop leading JSON whitespace. -/
def skipWs : List Char → List Char
  | [] => []
  | c :: cs => if isWsChar c then skipWs cs else c :: cs

/-- Consume one expected character. -/
def expectChar (c : Char) : List Char → Option (List Char)
  | x :: xs => if x = c then some xs else none
  | [] => none

/-- Longest prefix of decimal digits, and the remainder. -/
def takeDigits : List Char → List Char × List Char
  | [] => ([], [])
  | c :: cs =>
    if isDigit c then
      let p := takeDigits cs
      (c :: p.1, p.2)
    else ([], c :: cs)

/-- Numeric value of a digit string (most significant first). -/
def digitsVal (ds : List Char) : ℕ := ds.foldl (fun a c => a * 10 + digitVal c) 0

/-- Parse a nonempty run of digits as a natural number. -/
def parseNat (cs : List Char) : Option (ℕ × List Char) :=
  let p := takeDigits cs
  if p.1.isEmpty then none else some (digitsVal p.1, p.2)

/-- Parse a JSON integer (optional minus sign, then digits). -/
def parseInt (cs : List Char) : Option (ℤ × List Char) :=
  if cs.head? = some '-' then
    (parseNat cs.tail).map (fun p => (-(p.1 : ℤ), p.2))
  else
    (parseNat cs).map (fun p => ((p.1 : ℤ), p.2))

/-- Consume the body of a JSON string literal up to the closing quote;
escape sequences are outside the modelled fragment (`none`). -/
def takeKeyBody : List Char → Option (List Char × List Char)
  | [] => none
  | c :: cs =>
    if c = '"' then some ([], cs)
    else if c = '\\' then none
    else (takeKeyBody cs).map (fun p => (c :: p.1, p.2))

/-- Parse a JSON string literal (no escapes). -/
def parseKey : List Char → Option (String × List Char)
  | c :: cs =>
    if c = '"' then (takeKeyBody cs).map (fun p => (String.mk p.1, p.2))
    else none
  | [] => none

/-- Parse one `{"Policy": p, "Moat": m}` record. -/
def parseRecord (cs : List Char) : Option (ManualEntry × List Char) := do
  let cs ← expectChar '{' (skipWs cs)
  let (k1, cs) ← parseKey (skipWs cs)
  let cs ← expectChar ':' (skipWs cs)
  let (p, cs) ← parseInt (skipWs cs)
  let cs ← expectChar ',' (skipWs cs)
  let (k2, cs) ← parseKey (skipWs cs)
  let cs ← expectChar ':' (skipWs cs)
  let (mo, cs) ← parseInt (skipWs cs)
  let cs ← expectChar '}' (skipWs cs)
  if k1 = "Policy" ∧ k2 = "Moat" then some (⟨p, mo⟩, cs) else none

/-- Parse the nonempty member list of the outer object, finishing at the
closing brace.  `fuel` bounds the number of members. -/
def parseEntriesLoop : ℕ → List Char → Option (ManualMap × List Char)
  | 0, _ => none
  | fuel + 1, cs => do
    let (k, cs1) ← parseKey (skipWs cs)
    let cs2 ← expectChar ':' (skipWs cs1)
    let (v, cs3) ← parseRecord (skipWs cs2)
    let cs4 := skipWs cs3
    if cs4.head? = some ',' then do
      let (tail, r) ← parseEntriesLoop fuel cs4.tail
      some ((k, v) :: tail, r)
    else if cs4.head? = some '}' then some ([(k, v)], cs4.tail)
    else none

/-- Parse the outer object of a manual-scores dump. -/
def parseManualMap (cs : List Char) : Option (ManualMap × List Char) :=
  match expectChar '{' (skipWs cs) with
  | none => none
  | some cs1 =>
    let cs2 := skipWs cs1
    if cs2.head? = some '}' then some ([], cs2.tail)
    else parseEntriesLoop (cs2.length + 1) cs2

/-- `json.loads` on a manual-scores dump: parse the object and reject
trailing non-whitespace (Python raises "Extra data" there); `none` is the
exception path. -/
def json_loads_manual (s : String) : Option ManualMap :=
  match parseManualMap s.data with
  | some (m, rest) => if skipWs rest = [] then some m else none
  | none => none

/-- `st.session_state` restricted to the string-valued persistence slots. -/
def Storage : Type := String → Option String

/-- `save_to_storage` (src/app.py lines 89-94):
`st.session_state["persistent_" + key] = json.dumps(data)`.  Serializing
this data shape never raises, so the `except` branch is dead. -/
def save_to_storage (key : String) (data : ManualMap) (state : Storage) : Storage :=
  setKey state ("persistent_" ++ key) (some (json_dumps_manual data))

/-- `load_from_storage` (src/app.py lines 96-104): read
`st.session_state["persistent_" + key]` if present and `json.loads` it;
on a missing key or a `json.loads` exception return `default`. -/
def load_from_storage (key : String) (default : Option ManualMap)
    (state : Storage) : Option ManualMap :=
  match state ("persistent_" ++ key) with
  | some s =>
    match json_loads_manual s with
    | some m => some m
    | none => default
  | none => default

/-! ## Auxiliary definitions for the statements -/

/-- Modelled from the spec: `combined = Σ(score_i * weight_i) / Σ(weight_i
present)`, the "renormalized weighted average" of the present component
scores.  Stated over the list of (score, weight) pairs of the present
metrics.  This follows the spec's words, for comparison against
`calculate_2026_score`. -/
def renormalized_weighted_average (sw : List (ℚ × ℚ)) : ℚ :=
  (sw.map fun p => p.1 * p.2).sum / (sw.map Prod.snd).sum

/-- The provider field that drives the Quality component in each sector
(src/app.py lines 167-179): ROE for Mag7, gross margin for 資安, free cash
flow for 能源, operating margin for 半導體; NeoCloud's quality is a constant
50 and reads no field. -/
def quality_field (s : Sector) (i : Info) : Option ℚ :=
  match s with
  | Sector.Mag7 => i.returnOnEquity
  | Sector.Cybersecurity => i.grossMargins
  | Sector.Energy => i.freeCashflow
  | Sector.Semiconductor => i.operatingMargins
  | Sector.NeoCloud => none

/-- A character that `json.dumps` (with its default `ensure_ascii=True`)
emits verbatim inside a string literal: printable ASCII that is neither a
quote nor a backslash.  Every ticker symbol of `SECTORS` consists of such
characters. -/
def validKeyChar (c : Char) : Bool :=
  32 ≤ c.toNat && c.toNat < 127 && c != '"' && c != '\\'

/-! ## Helper lemmas -/

theorem round2_le_round2 {x y : ℚ} (h : x ≤ y) : round2 x ≤ round2 y := by
  unfold round2
  have hr : round (x * 100) ≤ round (y * 100) := by
    rw [round_eq, round_eq]
    exact Int.floor_mono (by linarith)
  have h2 : ((round (x * 100) : ℤ) : ℚ) ≤ ((round (y * 100) : ℤ) : ℚ) := by
    exact_mod_cast hr
  linarith

theorem round2_intCast (n : ℤ) : round2 (n : ℚ) = n := by
  unfold round2
  rw [show ((n : ℚ) * 100) = ((n * 100 : ℤ) : ℚ) by push_cast; ring, round_intCast]
  push_cast
  field_simp

theorem round2_zero_eq : round2 (0 : ℚ) = 0 := by
  simpa using round2_intCast 0

theorem round2_hundred : round2 (100 : ℚ) = 100 := by
  simpa using round2_intCast 100

theorem round2_fifty : round2 (50 : ℚ) = 50 := by
  simpa using round2_intCast 50

theorem round2_nonneg {x : ℚ} (h : 0 ≤ x) : 0 ≤ round2 x := by
  have := round2_le_round2 h
  rwa [round2_zero_eq] at this

theorem round2_le_hundred {x : ℚ} (h : x ≤ 100) : round2 x ≤ 100 := by
  have := round2_le_round2 h
  rwa [round2_hundred] at this

theorem clamp_nonneg (x : ℚ) : 0 ≤ max 0 (min 100 x) := le_max_left 0 _

theorem clamp_le_hundred (x : ℚ) : max 0 (min 100 x) ≤ 100 :=
  max_le (by norm_num) (min_le_left 100 x)

/-! ## C4: the Total is always in [0, 100] -/

/-- C4: For every truthy info record, sector, manual-score map, and weight
map with numeric entries, the `Total` field returned by
`calculate_2026_score` is a value in the interval [0, 100], including after
the final penalty/bonus adjustment is applied. -/
theorem C4_total_in_unit_range (info : Option Info) (s : Sector)
    (m : ManualScores) (a : SectorAvgData) (w : Weights) (r : ScoreResult)
    (h : calculate_2026_score info s m a w = some r) :
    0 ≤ r.Total ∧ r.Total ≤ 100 := by
  cases info with
  | none => simp [calculate_2026_score] at h
  | some i =>
    simp only [calculate_2026_score, Option.some.injEq] at h
    subst h
    exact ⟨round2_nonneg (clamp_nonneg _), round2_le_hundred (clamp_le_hundred _)⟩

/-- Witness for C4 at a concrete input: the all-defaults Mag7 record scores
`Total = 45/2`, which the theorem places in [0, 100]. -/
theorem C4_total_in_unit_range_witness :
    0 ≤ ({ Total := 45/2, Valuation := 50, Quality := 0, Growth := 0,
           MoatPolicy := 50, Adjustment := 0 } : ScoreResult).Total ∧
    ({ Total := 45/2, Valuation := 50, Quality := 0, Growth := 0,
       MoatPolicy := 50, Adjustment := 0 } : ScoreResult).Total ≤ 100 :=
  C4_total_in_unit_range (some {}) Sector.Mag7 {} {} (SECTOR_CONFIG Sector.Mag7) _
    (by norm_num [calculate_2026_score, val_score, qual_score, growth_score,
      moat_policy_score, final_adjustment, SECTOR_CONFIG, round2, round_eq])

/-! ## C3: all metrics missing does not give the neutral 50 -/

/-- C3 counterexample: a truthy info record with none of the six fundamental
metric fields available, scored in the Mag7 sector with its default weights
and an empty manual-score map, yields the combined score 22.5 — not the
claimed neutral default 50 (Quality and Growth default to score 0, not 50). -/
theorem C3_counterexample :
    (calculate_2026_score (some { symbol := some "AAPL" }) Sector.Mag7 {} {}
        (SECTOR_CONFIG Sector.Mag7)).map ScoreResult.Total = some (45/2)
  ∧ (45/2 : ℚ) ≠ 50 := by
  constructor
  · norm_num [calculate_2026_score, val_score, qual_score, growth_score,
      moat_policy_score, final_adjustment, SECTOR_CONFIG, round2, round_eq]
  · norm_num

/-- C3 amended: with no fundamental metric field available,
`calculate_2026_score` still returns a result (it does not raise), but the
combined score is the clamped plain weighted sum of the default component
scores — Valuation 50, Quality 50 in the 能源/NeoCloud sectors and 0 in the
others, Growth 0, MoatPolicy taken from the manual map — rather than the
neutral 50. -/
theorem C3_amended (s : Sector) (m : ManualScores) (a : SectorAvgData)
    (w : Weights) (i : Info)
    (hpe : i.forwardPE = none) (hroe : i.returnOnEquity = none)
    (hfcf : i.freeCashflow = none) (hgm : i.grossMargins = none)
    (hop : i.operatingMargins = none) (hrg : i.revenueGrowth = none) :
    ∃ r, calculate_2026_score (some i) s m a w = some r
      ∧ r.Valuation = 50
      ∧ r.Growth = 0
      ∧ r.Quality = (if s = Sector.Energy ∨ s = Sector.NeoCloud then (50 : ℚ) else 0)
      ∧ r.Adjustment = 0
      ∧ r.Total = round2 (max 0 (min 100 (50 * w.Valuation +
          (if s = Sector.Energy ∨ s = Sector.NeoCloud then (50 : ℚ) else 0) * w.Quality +
          0 * w.Growth + moat_policy_score m * w.MoatPolicy))) := by
  refine ⟨_, rfl, ?_, ?_, ?_, ?_, ?_⟩ <;>
  · cases s <;>
      simp [calculate_2026_score, val_score, qual_score, growth_score,
        moat_policy_score, final_adjustment, hpe, hroe, hfcf, hgm, hop, hrg,
        round2_fifty, round2_zero_eq] <;>
      norm_num [round2_fifty, round2_zero_eq]

/-- Witness for C3 amended, instantiated at a truthy all-fields-missing
record in the Mag7 sector. -/
theorem C3_amended_witness :
    ∃ r, calculate_2026_score (some { symbol := some "AAPL" }) Sector.Mag7 {} {}
        (SECTOR_CONFIG Sector.Mag7) = some r
      ∧ r.Valuation = 50
      ∧ r.Growth = 0
      ∧ r.Quality = (if Sector.Mag7 = Sector.Energy ∨ Sector.Mag7 = Sector.NeoCloud
          then (50 : ℚ) else 0)
      ∧ r.Adjustment = 0
      ∧ r.Total = round2 (max 0 (min 100 (50 * (SECTOR_CONFIG Sector.Mag7).Valuation +
          (if Sector.Mag7 = Sector.Energy ∨ Sector.Mag7 = Sector.NeoCloud then (50 : ℚ) else 0)
            * (SECTOR_CONFIG Sector.Mag7).Quality +
          0 * (SECTOR_CONFIG Sector.Mag7).Growth +
          moat_policy_score {} * (SECTOR_CONFIG Sector.Mag7).MoatPolicy))) :=
  C3_amended Sector.Mag7 {} {} (SECTOR_CONFIG Sector.Mag7) { symbol := some "AAPL" }
    rfl rfl rfl rfl rfl rfl

/-! ## C9: the 資安 gross-margin premium and the [0,100] component range -/

/-- C9 counterexample: the claim asserts Quality exceeds 100 for ANY 資安
record with gross margins above 0.75, but at grossMargins = 0.8 the returned
Quality is exactly 100 (80 clamped-scale points + 20 premium), which does
not exceed 100. -/
theorem C9_counterexample :
    (0.8 : ℚ) > 0.75
  ∧ (calculate_2026_score (some { grossMargins := some 0.8 }) Sector.Cybersecurity
        {} {} (SECTOR_CONFIG Sector.Cybersecurity)).map ScoreResult.Quality = some 100
  ∧ ¬ ((100 : ℚ) > 100) := by
  refine ⟨by norm_num, ?_, by norm_num⟩
  norm_num [calculate_2026_score, val_score, qual_score, growth_score,
    moat_policy_score, final_adjustment, SECTOR_CONFIG, round2, round_eq]

/-- C9 amended: in the 資安 sector, for any info record whose grossMargins
value g exceeds 0.80005, the returned Quality component exceeds 100 — the
20-point premium is added after the `max(0, min(100, ...))` clamp and the
returned component is only rounded, never re-clamped — so returned component
scores are not all confined to [0, 100].  (The claimed trigger bound 0.75 is
too low only because of the clamp at 100 and the 2-decimal rounding: between
0.75 and 0.8 the premium lifts the score to at most 100, and at
g = 0.8 + ε it rounds back to 100 for ε ≤ 0.00005.) -/
theorem C9_amended (i : Info) (g : ℚ) (m : ManualScores) (a : SectorAvgData)
    (w : Weights) (hg : i.grossMargins = some g) (hgt : g > 0.80005) :
    ∃ r, calculate_2026_score (some i) Sector.Cybersecurity m a w = some r
      ∧ r.Quality = round2 (max 0 (min 100 (g * 100)) + 20)
      ∧ r.Quality > 100 := by
  refine ⟨_, rfl, ?_, ?_⟩
  · simp only [calculate_2026_score, qual_score, hg, Option.getD_some]
    rw [if_pos (show g > (0.75 : ℚ) by linarith)]
  · simp only [calculate_2026_score, qual_score, hg, Option.getD_some]
    rw [if_pos (show g > (0.75 : ℚ) by linarith)]
    have hx : max 0 (min 100 (g * 100)) + 20 > 100.005 := by
      have h1 : min 100 (g * 100) > 80.005 := lt_min (by norm_num) (by nlinarith)
      have h2 : max 0 (min 100 (g * 100)) = min 100 (g * 100) :=
        max_eq_right (le_of_lt (lt_trans (by norm_num) h1))
      rw [h2]; linarith
    have hr : (10001 : ℤ) ≤ round ((max 0 (min 100 (g * 100)) + 20) * 100) := by
      rw [round_eq]
      exact Int.le_floor.mpr (by push_cast; nlinarith)
    unfold round2
    have h3 : ((10001 : ℤ) : ℚ) ≤ ((round ((max 0 (min 100 (g * 100)) + 20) * 100) : ℤ) : ℚ) := by
      exact_mod_cast hr
    push_cast at h3
    linarith

/-- Witness for C9 amended at grossMargins = 0.9: Quality = 110 > 100. -/
theorem C9_amended_witness :
    ∃ r, calculate_2026_score (some { grossMargins := some 0.9 }) Sector.Cybersecurity
        {} {} (SECTOR_CONFIG Sector.Cybersecurity) = some r
      ∧ r.Quality = round2 (max 0 (min 100 ((0.9 : ℚ) * 100)) + 20)
      ∧ r.Quality > 100 :=
  C9_amended { grossMargins := some 0.9 } 0.9 {} {} (SECTOR_CONFIG Sector.Cybersecurity)
    rfl (by norm_num)

/-! ## C6: negative free cash flow is penalized additively, not by ×0.8 -/

/-- C6 counterexample: in the 能源 sector with default weights and no other
metrics, a record with freeCashflow = −1 scores Total 15, while the same
record with freeCashflow = +1 scores Total 60; 15 ≠ 0.8 × 60, so no
multiplicative ×0.8 penalty is applied anywhere in `calculate_2026_score`. -/
theorem C6_counterexample :
    (calculate_2026_score (some { freeCashflow := some (-1) }) Sector.Energy {} {}
        (SECTOR_CONFIG Sector.Energy)).map ScoreResult.Total = some 15
  ∧ (calculate_2026_score (some { freeCashflow := some 1 }) Sector.Energy {} {}
        (SECTOR_CONFIG Sector.Energy)).map ScoreResult.Total = some 60
  ∧ (15 : ℚ) ≠ 0.8 * 60 := by
  refine ⟨?_, ?_, by norm_num⟩ <;>
    norm_num [calculate_2026_score, val_score, qual_score, growth_score,
      moat_policy_score, final_adjustment, SECTOR_CONFIG, round2, round_eq]

/-- C6 amended: the effect of negative free cash flow is additive and
sector-local, not a ×0.8 multiplication: in 能源 the Quality component is
driven to 0 (the 50-branch minus the hard 50-point deduction) and the final
adjustment is −10; in NeoCloud the Quality stays at its constant 50 and the
final adjustment is −10; in Mag7, 資安 and 半導體 the score is entirely
unchanged by the sign of free cash flow. -/
theorem C6_amended (i : Info) (m : ManualScores) (a : SectorAvgData) (w : Weights)
    (hneg : i.freeCashflow.getD 0 < 0) :
    (∀ r, calculate_2026_score (some i) Sector.Energy m a w = some r →
        r.Quality = 0 ∧ r.Adjustment = -10)
  ∧ (∀ r, calculate_2026_score (some i) Sector.NeoCloud m a w = some r →
        r.Quality = 50 ∧ r.Adjustment = -10)
  ∧ (∀ s, s = Sector.Mag7 ∨ s = Sector.Cybersecurity ∨ s = Sector.Semiconductor →
        calculate_2026_score (some i) s m a w =
          calculate_2026_score (some { i with freeCashflow := some 1 }) s m a w) := by
  have hnotpos : ¬ (0 : ℚ) < i.freeCashflow.getD 0 := by linarith
  refine ⟨?_, ?_, ?_⟩
  · intro r hr
    simp only [calculate_2026_score, qual_score, final_adjustment,
      Option.some.injEq] at hr
    subst hr
    rw [if_neg hnotpos] at *
    constructor
    · simp only [if_pos hneg]
      norm_num [round2_zero_eq]
    · simp only [if_pos (show (Sector.Energy = Sector.Energy ∨ Sector.Energy = Sector.NeoCloud) ∧ i.freeCashflow.getD 0 < 0 from ⟨Or.inl rfl, hneg⟩)]
      simp
      exact hneg
  · intro r hr
    simp only [calculate_2026_score, qual_score, final_adjustment,
      Option.some.injEq] at hr
    subst hr
    constructor
    · exact round2_fifty
    · simp only [if_pos (show (Sector.NeoCloud = Sector.Energy ∨ Sector.NeoCloud = Sector.NeoCloud) ∧ i.freeCashflow.getD 0 < 0 from ⟨Or.inr rfl, hneg⟩)]
      simp
      exact hneg
  · rintro s (rfl | rfl | rfl) <;>
      simp [calculate_2026_score, qual_score, final_adjustment]

/-- Witness for C6 amended at freeCashflow = −1. -/
theorem C6_amended_witness :
    (∀ r, calculate_2026_score (some { freeCashflow := some (-1) }) Sector.Energy
        {} {} (SECTOR_CONFIG Sector.Energy) = some r →
        r.Quality = 0 ∧ r.Adjustment = -10)
  ∧ (∀ r, calculate_2026_score (some { freeCashflow := some (-1) }) Sector.NeoCloud
        {} {} (SECTOR_CONFIG Sector.Energy) = some r →
        r.Quality = 50 ∧ r.Adjustment = -10)
  ∧ (∀ s, s = Sector.Mag7 ∨ s = Sector.Cybersecurity ∨ s = Sector.Semiconductor →
        calculate_2026_score (some { freeCashflow := some (-1) }) s
            {} {} (SECTOR_CONFIG Sector.Energy) =
          calculate_2026_score
            (some { ({ freeCashflow := some (-1) } : Info) with freeCashflow := some 1 }) s
            {} {} (SECTOR_CONFIG Sector.Energy)) :=
  C6_amended { freeCashflow := some (-1) } {} {} (SECTOR_CONFIG Sector.Energy)
    (by norm_num)

/-! ## C1: the combined score is a plain weighted sum, not renormalized -/

/-- C1 counterexample: with all four metrics present and every weight 0.5,
the code returns Total 100 (the plain weighted sum, clamped), while the
spec's renormalized weighted average of the same (score, weight) pairs is
50.  The code performs no division by the weight sum, so rescaling the
weights changes the result. -/
theorem C1_counterexample :
    calculate_2026_score
        (some { forwardPE := some 25, returnOnEquity := some 0.2,
                revenueGrowth := some 0.1 })
        Sector.Mag7 {} {}
        { Valuation := 0.5, Quality := 0.5, Growth := 0.5, MoatPolicy := 0.5 }
      = some { Total := 100, Valuation := 50, Quality := 80, Growth := 20,
               MoatPolicy := 50, Adjustment := 0 }
  ∧ renormalized_weighted_average [(50, 0.5), (80, 0.5), (20, 0.5), (50, 0.5)] = 50
  ∧ (100 : ℚ) ≠ 50 := by
  refine ⟨?_, ?_, by norm_num⟩
  · norm_num [calculate_2026_score, val_score, qual_score, growth_score,
      moat_policy_score, final_adjustment, round2, round_eq]
  · norm_num [renormalized_weighted_average]

/-- C1 amended: the combined score is the clamp to [0,100] of the PLAIN
weighted sum `Σ score_i * w_i` plus the final adjustment; absent metrics
contribute their default component scores rather than being dropped, and no
renormalization by `Σ w_i` takes place.  Consequently the result coincides
with the spec's renormalized weighted average exactly in the case where the
weights sum to 1 (stated here with a zero final adjustment). -/
theorem C1_amended (i : Info) (s : Sector) (m : ManualScores)
    (a : SectorAvgData) (w : Weights)
    (hw : w.Valuation + w.Quality + w.Growth + w.MoatPolicy = 1)
    (hadj : final_adjustment s (i.grossMargins.getD 0) (i.freeCashflow.getD 0) = 0) :
    (calculate_2026_score (some i) s m a w).map ScoreResult.Total
      = some (round2 (max 0 (min 100 (renormalized_weighted_average
          [(val_score s (a.avg_fwd_pe.getD 25) i.forwardPE, w.Valuation),
           (qual_score s (i.returnOnEquity.getD 0) (i.freeCashflow.getD 0)
              (i.grossMargins.getD 0) (i.operatingMargins.getD 0), w.Quality),
           (growth_score s (i.revenueGrowth.getD 0), w.Growth),
           (moat_policy_score m, w.MoatPolicy)])))) := by
  simp only [calculate_2026_score, hadj, add_zero, Option.map_some']
  congr 2
  unfold renormalized_weighted_average
  simp only [List.map_cons, List.map_nil, List.sum_cons, List.sum_nil]
  rw [show w.Valuation + (w.Quality + (w.Growth + (w.MoatPolicy + 0))) = 1 by
    linarith]
  rw [div_one]
  ring_nf

/-- Witness for C1 amended: the Mag7 default weights sum to 1 and the
all-defaults record triggers no adjustment, so there the code's Total agrees
with the renormalized weighted average. -/
theorem C1_amended_witness :
    (calculate_2026_score (some {}) Sector.Mag7 {} {}
        (SECTOR_CONFIG Sector.Mag7)).map ScoreResult.Total
      = some (round2 (max 0 (min 100 (renormalized_weighted_average
          [(val_score Sector.Mag7 ((SectorAvgData.avg_fwd_pe {}).getD 25)
              (Info.forwardPE {}), (SECTOR_CONFIG Sector.Mag7).Valuation),
           (qual_score Sector.Mag7 ((Info.returnOnEquity {}).getD 0)
              ((Info.freeCashflow {}).getD 0) ((Info.grossMargins {}).getD 0)
              ((Info.operatingMargins {}).getD 0), (SECTOR_CONFIG Sector.Mag7).Quality),
           (growth_score Sector.Mag7 ((Info.revenueGrowth {}).getD 0),
              (SECTOR_CONFIG Sector.Mag7).Growth),
           (moat_policy_score {}, (SECTOR_CONFIG Sector.Mag7).MoatPolicy)])))) :=
  C1_amended {} Sector.Mag7 {} {} (SECTOR_CONFIG Sector.Mag7)
    (by norm_num [SECTOR_CONFIG])
    (by norm_num [final_adjustment])

/-! ## C2: the Valuation component is antitone in forward PE and in [0,100] -/

theorem val_score_some_pos (s : Sector) {avg x : ℚ} (hx : 0 < x) :
    val_score s avg (some x) =
      if s = Sector.Mag7 ∧ x < avg * 0.9
      then min 100 (max 0 (min 100 (avg / x * 50)) * 1.2)
      else max 0 (min 100 (avg / x * 50)) := by
  simp only [val_score]
  rw [if_pos (⟨hx.ne', hx⟩ : x ≠ 0 ∧ 0 < x)]

theorem val_score_nonneg (s : Sector) (avg : ℚ) (o : Option ℚ) :
    0 ≤ val_score s avg o := by
  cases o with
  | none => simp [val_score]
  | some p =>
    simp only [val_score]
    split_ifs with h hb
    · exact le_min (by norm_num)
        (mul_nonneg (le_max_left 0 _) (by norm_num))
    · exact le_max_left 0 _
    · norm_num

theorem val_score_le_hundred (s : Sector) (avg : ℚ) (o : Option ℚ) :
    val_score s avg o ≤ 100 := by
  cases o with
  | none => norm_num [val_score]
  | some p =>
    simp only [val_score]
    split_ifs with h hb
    · exact min_le_left 100 _
    · exact max_le (by norm_num) (min_le_left 100 _)
    · norm_num

theorem val_score_anti (s : Sector) {avg p q : ℚ} (havg : 0 < avg)
    (hp : 0 < p) (hpq : p ≤ q) :
    val_score s avg (some q) ≤ val_score s avg (some p) := by
  have hq : 0 < q := lt_of_lt_of_le hp hpq
  have hvqp : max 0 (min 100 (avg / q * 50)) ≤ max 0 (min 100 (avg / p * 50)) := by
    gcongr
  rw [val_score_some_pos s hq, val_score_some_pos s hp]
  split_ifs with hbq hbp
  · exact min_le_min le_rfl (by gcongr)
  · exact absurd ⟨hbq.1, by linarith [hbq.2]⟩ hbp
  · refine le_min (max_le (by norm_num) (min_le_left 100 _)) ?_
    calc max 0 (min 100 (avg / q * 50)) ≤ max 0 (min 100 (avg / p * 50)) := hvqp
      _ ≤ max 0 (min 100 (avg / p * 50)) * 1.2 :=
          le_mul_of_one_le_right (le_max_left 0 _) (by norm_num)
  · exact hvqp

/-- C2: For all positive forward-PE values p, the Valuation component
produced by `calculate_2026_score` (for every sector, including the Mag7
discount-bonus branch) is monotonically non-increasing in p and lies in
[0, 100]. -/
theorem C2_valuation_monotone_bounded (s : Sector) (m : ManualScores)
    (a : SectorAvgData) (w : Weights) (i1 i2 : Info) (p1 p2 : ℚ)
    (h1 : i1.forwardPE = some p1) (h2 : i2.forwardPE = some p2)
    (havg : 0 < a.avg_fwd_pe.getD 25) (hp : 0 < p1) (hle : p1 ≤ p2) :
    ∃ r1 r2, calculate_2026_score (some i1) s m a w = some r1
      ∧ calculate_2026_score (some i2) s m a w = some r2
      ∧ r2.Valuation ≤ r1.Valuation
      ∧ 0 ≤ r1.Valuation ∧ r1.Valuation ≤ 100
      ∧ 0 ≤ r2.Valuation ∧ r2.Valuation ≤ 100 := by
  have hv : val_score s (a.avg_fwd_pe.getD 25) (some p2)
      ≤ val_score s (a.avg_fwd_pe.getD 25) (some p1) :=
    val_score_anti s havg hp hle
  refine ⟨_, _, rfl, rfl, ?_, ?_, ?_, ?_, ?_⟩
  · show round2 (val_score s (a.avg_fwd_pe.getD 25) i2.forwardPE)
        ≤ round2 (val_score s (a.avg_fwd_pe.getD 25) i1.forwardPE)
    rw [h1, h2]
    exact round2_le_round2 hv
  · show 0 ≤ round2 (val_score s (a.avg_fwd_pe.getD 25) i1.forwardPE)
    exact round2_nonneg (val_score_nonneg s _ _)
  · show round2 (val_score s (a.avg_fwd_pe.getD 25) i1.forwardPE) ≤ 100
    exact round2_le_hundred (val_score_le_hundred s _ _)
  · show 0 ≤ round2 (val_score s (a.avg_fwd_pe.getD 25) i2.forwardPE)
    exact round2_nonneg (val_score_nonneg s _ _)
  · show round2 (val_score s (a.avg_fwd_pe.getD 25) i2.forwardPE) ≤ 100
    exact round2_le_hundred (val_score_le_hundred s _ _)

/-- Witness for C2 in the Mag7 sector (bonus branch reachable) at forward
PEs 20 ≤ 30 with the default sector average 25. -/
theorem C2_valuation_monotone_bounded_witness :
    ∃ r1 r2,
      calculate_2026_score (some { forwardPE := some 20 }) Sector.Mag7 {} {}
          (SECTOR_CONFIG Sector.Mag7) = some r1
      ∧ calculate_2026_score (some { forwardPE := some 30 }) Sector.Mag7 {} {}
          (SECTOR_CONFIG Sector.Mag7) = some r2
      ∧ r2.Valuation ≤ r1.Valuation
      ∧ 0 ≤ r1.Valuation ∧ r1.Valuation ≤ 100
      ∧ 0 ≤ r2.Valuation ∧ r2.Valuation ≤ 100 :=
  C2_valuation_monotone_bounded Sector.Mag7 {} {} (SECTOR_CONFIG Sector.Mag7)
    { forwardPE := some 20 } { forwardPE := some 30 } 20 30 rfl rfl
    (by norm_num) (by norm_num) (by norm_num)

/-! ## C7: missing fields default to 50 or drop out of the weighted sum -/

/-- C7: whenever a metric's field is absent from the provider record, the
corresponding component score defaults to the neutral 50, or that metric's
weight is skipped in forming the combined score.  In this (unrenormalized)
scoring engine "the weight is skipped" is realized as: the component score
is 0, so the result is identical to what the same call returns with that
component's weight set to 0.  Concretely: an absent forwardPE leaves the
Valuation component at its default 50; an absent quality-driving field
gives Quality 50 (能源, NeoCloud) or makes the Quality weight irrelevant
(score 0: Mag7, 資安, 半導體); an absent revenueGrowth makes the Growth
weight irrelevant (score 0). -/
theorem C7_missing_field_defaults (s : Sector) (i : Info) (m : ManualScores)
    (a : SectorAvgData) (w : Weights) :
    (i.forwardPE = none → val_score s (a.avg_fwd_pe.getD 25) i.forwardPE = 50)
  ∧ (quality_field s i = none →
      qual_score s (i.returnOnEquity.getD 0) (i.freeCashflow.getD 0)
          (i.grossMargins.getD 0) (i.operatingMargins.getD 0) = 50
      ∨ calculate_2026_score (some i) s m a w =
          calculate_2026_score (some i) s m a { w with Quality := 0 })
  ∧ (i.revenueGrowth = none →
      calculate_2026_score (some i) s m a w =
        calculate_2026_score (some i) s m a { w with Growth := 0 }) := by
  refine ⟨?_, ?_, ?_⟩
  · intro h
    rw [h]
    simp [val_score]
  · intro h
    cases s with
    | Energy =>
      left
      simp only [quality_field] at h
      norm_num [qual_score, h]
    | NeoCloud => left; simp [qual_score]
    | Mag7 =>
      right
      simp only [quality_field] at h
      have hz : qual_score Sector.Mag7 (i.returnOnEquity.getD 0)
          (i.freeCashflow.getD 0) (i.grossMargins.getD 0)
          (i.operatingMargins.getD 0) = 0 := by
        norm_num [qual_score, h]
      simp only [calculate_2026_score, hz]
      norm_num
    | Cybersecurity =>
      right
      simp only [quality_field] at h
      have hz : qual_score Sector.Cybersecurity (i.returnOnEquity.getD 0)
          (i.freeCashflow.getD 0) (i.grossMargins.getD 0)
          (i.operatingMargins.getD 0) = 0 := by
        norm_num [qual_score, h]
      simp only [calculate_2026_score, hz]
      norm_num [final_adjustment, h]
    | Semiconductor =>
      right
      simp only [quality_field] at h
      have hz : qual_score Sector.Semiconductor (i.returnOnEquity.getD 0)
          (i.freeCashflow.getD 0) (i.grossMargins.getD 0)
          (i.operatingMargins.getD 0) = 0 := by
        norm_num [qual_score, h]
      simp only [calculate_2026_score, hz]
      norm_num
  · intro h
    have hz : growth_score s (i.revenueGrowth.getD 0) = 0 := by
      cases s <;> norm_num [growth_score, h]
    simp only [calculate_2026_score, hz]
    norm_num

/-- Witness for C7 at the all-fields-missing record in the Mag7 sector. -/
theorem C7_missing_field_defaults_witness :
    val_score Sector.Mag7 ((SectorAvgData.avg_fwd_pe {}).getD 25) (Info.forwardPE {}) = 50
  ∧ (qual_score Sector.Mag7 ((Info.returnOnEquity {}).getD 0)
        ((Info.freeCashflow {}).getD 0) ((Info.grossMargins {}).getD 0)
        ((Info.operatingMargins {}).getD 0) = 50
      ∨ calculate_2026_score (some {}) Sector.Mag7 {} {} (SECTOR_CONFIG Sector.Mag7) =
          calculate_2026_score (some {}) Sector.Mag7 {} {}
            { SECTOR_CONFIG Sector.Mag7 with Quality := 0 })
  ∧ calculate_2026_score (some {}) Sector.Mag7 {} {} (SECTOR_CONFIG Sector.Mag7) =
      calculate_2026_score (some {}) Sector.Mag7 {} {}
        { SECTOR_CONFIG Sector.Mag7 with Growth := 0 } :=
  ⟨(C7_missing_field_defaults Sector.Mag7 {} {} {} (SECTOR_CONFIG Sector.Mag7)).1 rfl,
   (C7_missing_field_defaults Sector.Mag7 {} {} {} (SECTOR_CONFIG Sector.Mag7)).2.1 rfl,
   (C7_missing_field_defaults Sector.Mag7 {} {} {} (SECTOR_CONFIG Sector.Mag7)).2.2 rfl⟩

/-! ## C8: bounded retries, silent None, fixed / linearly increasing sleeps -/

theorem get_stock_data_attempts_le (l : List FetchOutcome) :
    (get_stock_data l).attempts_made ≤ l.length := by
  induction l with
  | nil => simp [get_stock_data]
  | cons o rest ih =>
    cases o <;> cases rest <;> simp_all [get_stock_data]

theorem get_stock_data_all_fail (l : List FetchOutcome)
    (h : ∀ o ∈ l, o.isOk = false) : (get_stock_data l).result = none := by
  induction l with
  | nil => simp [get_stock_data]
  | cons o rest ih =>
    cases o with
    | ok i => simpa [FetchOutcome.isOk] using h _ (List.mem_cons_self _ _)
    | incomplete =>
      cases rest with
      | nil => simp [get_stock_data]
      | cons b t =>
        simp only [get_stock_data]
        exact ih (fun o ho => h o (List.mem_cons_of_mem _ ho))
    | error =>
      cases rest with
      | nil => simp [get_stock_data]
      | cons b t =>
        simp only [get_stock_data]
        exact ih (fun o ho => h o (List.mem_cons_of_mem _ ho))

theorem get_stock_data_sleeps_fixed (l : List FetchOutcome) :
    ∀ d ∈ (get_stock_data l).sleeps, d = 1 := by
  induction l with
  | nil => simp [get_stock_data]
  | cons o rest ih =>
    cases o with
    | ok i => simp [get_stock_data]
    | incomplete =>
      cases rest with
      | nil => simp [get_stock_data]
      | cons b t =>
        simp only [get_stock_data]
        intro d hd
        rcases List.mem_cons.mp hd with rfl | hmem
        · rfl
        · exact ih d hmem
    | error =>
      cases rest with
      | nil => simp [get_stock_data]
      | cons b t =>
        simp only [get_stock_data]
        intro d hd
        rcases List.mem_cons.mp hd with rfl | hmem
        · rfl
        · exact ih d hmem

theorem call_gemini_loop_attempts_le {α : Type} (delay : ℚ) (l : List (Option α)) :
    (call_gemini_loop delay l).attempts_made ≤ l.length := by
  induction l generalizing delay with
  | nil => simp [call_gemini_loop]
  | cons o rest ih =>
    cases o <;> cases rest <;> simp_all [call_gemini_loop]

theorem call_gemini_loop_all_fail {α : Type} (delay : ℚ) (l : List (Option α))
    (h : ∀ o ∈ l, o = none) : (call_gemini_loop delay l).result = none := by
  induction l generalizing delay with
  | nil => simp [call_gemini_loop]
  | cons o rest ih =>
    have ho := h _ (List.mem_cons_self _ _)
    subst ho
    cases rest with
    | nil => simp [call_gemini_loop]
    | cons b t =>
      simp only [call_gemini_loop]
      exact ih _ (fun o ho => h o (List.mem_cons_of_mem _ ho))

/-- C8: every failing fetch or API call performs at most its bounded retry
count (3 = `MAX_RETRIES` at every call site) of attempts before returning
`None` without raising; `get_stock_data` sleeps a fixed 1 second between
retries, and `call_gemini_with_retry`'s delay schedule at its call sites is
[], [2] or [2, 4] — linearly increasing with common difference 2. -/
theorem C8_bounded_retries {α : Type} (fo : List FetchOutcome)
    (go : List (Option α)) (hf : fo.length = 3) (hg : go.length = MAX_RETRIES) :
    (get_stock_data fo).attempts_made ≤ 3
  ∧ ((∀ o ∈ fo, o.isOk = false) → (get_stock_data fo).result = none)
  ∧ (∀ d ∈ (get_stock_data fo).sleeps, d = 1)
  ∧ (call_gemini_with_retry go).attempts_made ≤ MAX_RETRIES
  ∧ ((∀ o ∈ go, o = none) → (call_gemini_with_retry go).result = none)
  ∧ ((call_gemini_with_retry go).sleeps = [] ∨ (call_gemini_with_retry go).sleeps = [2]
      ∨ (call_gemini_with_retry go).sleeps = [2, 4])
  ∧ List.Chain' (fun x y => y = x + 2) (call_gemini_with_retry go).sleeps := by
  have hsleeps : (call_gemini_with_retry go).sleeps = []
      ∨ (call_gemini_with_retry go).sleeps = [2]
      ∨ (call_gemini_with_retry go).sleeps = [2, 4] := by
    obtain ⟨x, y, z, rfl⟩ := List.length_eq_three.mp hg
    cases x <;> cases y <;> cases z <;>
      norm_num [call_gemini_with_retry, call_gemini_loop]
  refine ⟨hf ▸ get_stock_data_attempts_le fo, get_stock_data_all_fail fo,
    get_stock_data_sleeps_fixed fo,
    hg ▸ call_gemini_loop_attempts_le 2 go,
    call_gemini_loop_all_fail 2 go, hsleeps, ?_⟩
  rcases hsleeps with h | h | h <;> rw [h] <;> norm_num

/-- Witness for C8: three failing attempts on both retry loops. -/
theorem C8_bounded_retries_witness :
    (get_stock_data [FetchOutcome.error, FetchOutcome.error,
        FetchOutcome.error]).attempts_made ≤ 3
  ∧ ((∀ o ∈ [FetchOutcome.error, FetchOutcome.error, FetchOutcome.error],
        o.isOk = false) →
      (get_stock_data [FetchOutcome.error, FetchOutcome.error,
          FetchOutcome.error]).result = none)
  ∧ (∀ d ∈ (get_stock_data [FetchOutcome.error, FetchOutcome.error,
        FetchOutcome.error]).sleeps, d = 1)
  ∧ (call_gemini_with_retry [none, none, (none : Option String)]).attempts_made
      ≤ MAX_RETRIES
  ∧ ((∀ o ∈ [none, none, (none : Option String)], o = none) →
      (call_gemini_with_retry [none, none, (none : Option String)]).result = none)
  ∧ ((call_gemini_with_retry [none, none, (none : Option String)]).sleeps = []
      ∨ (call_gemini_with_retry [none, none, (none : Option String)]).sleeps = [2]
      ∨ (call_gemini_with_retry [none, none, (none : Option String)]).sleeps = [2, 4])
  ∧ List.Chain' (fun x y => y = x + 2)
      (call_gemini_with_retry [none, none, (none : Option String)]).sleeps :=
  C8_bounded_retries
    [FetchOutcome.error, FetchOutcome.error, FetchOutcome.error]
    [none, none, (none : Option String)] rfl rfl

/-! ## C10: the clear-AI-records handler and its frame -/

/-- C10: the clear-AI-records operation resets every listed stock's weight
map to its sector's default configuration (for tickers listed under two
sectors — NVDA, TSLA — the handler's loop leaves the configuration of the
last sector listing them, exactly as the initialization loop does), sets
every listed stock's ai_adjusted flag to False, and empties the
stock_insights map, while leaving the manual_scores map unchanged. -/
theorem C10_clear_ai_records (st : AppState) :
    (clearAIRecords st).manual_scores = st.manual_scores
  ∧ (clearAIRecords st).stock_insights = []
  ∧ ∀ p ∈ SECTORS, ∀ stock ∈ p.2,
      (clearAIRecords st).ai_adjusted stock = false
      ∧ ∃ q ∈ SECTORS, stock ∈ q.2
          ∧ (clearAIRecords st).weights stock = SECTOR_CONFIG q.1 := by
  refine ⟨rfl, rfl, ?_⟩
  intro p hp
  fin_cases hp
  · intro stock hs
    fin_cases hs
    · exact ⟨rfl, (Sector.Mag7, ["AAPL", "MSFT", "GOOGL", "AMZN", "META", "NVDA", "TSLA"]), by decide, by decide, rfl⟩
    · exact ⟨rfl, (Sector.Mag7, ["AAPL", "MSFT", "GOOGL", "AMZN", "META", "NVDA", "TSLA"]), by decide, by decide, rfl⟩
    · exact ⟨rfl, (Sector.Mag7, ["AAPL", "MSFT", "GOOGL", "AMZN", "META", "NVDA", "TSLA"]), by decide, by decide, rfl⟩
    · exact ⟨rfl, (Sector.Mag7, ["AAPL", "MSFT", "GOOGL", "AMZN", "META", "NVDA", "TSLA"]), by decide, by decide, rfl⟩
    · exact ⟨rfl, (Sector.Mag7, ["AAPL", "MSFT", "GOOGL", "AMZN", "META", "NVDA", "TSLA"]), by decide, by decide, rfl⟩
    · exact ⟨rfl, (Sector.Semiconductor, ["NVDA", "AMD", "INTC", "TSM", "AVGO"]), by decide, by decide, rfl⟩
    · exact ⟨rfl, (Sector.Energy, ["TSLA", "CEG", "FLNC", "TE", "NEE", "ENPH", "EOSE", "VST", "PLUG", "OKLO", "SMR", "BE", "GEV"]), by decide, by decide, rfl⟩
  · intro stock hs
    fin_cases hs
    · exact ⟨rfl, (Sector.Cybersecurity, ["CRWD", "PANW", "ZS", "OKTA", "FTNT", "S"]), by decide, by decide, rfl⟩
    · exact ⟨rfl, (Sector.Cybersecurity, ["CRWD", "PANW", "ZS", "OKTA", "FTNT", "S"]), by decide, by decide, rfl⟩
    · exact ⟨rfl, (Sector.Cybersecurity, ["CRWD", "PANW", "ZS", "OKTA", "FTNT", "S"]), by decide, by decide, rfl⟩
    · exact ⟨rfl, (Sector.Cybersecurity, ["CRWD", "PANW", "ZS", "OKTA", "FTNT", "S"]), by decide, by decide, rfl⟩
    · exact ⟨rfl, (Sector.Cybersecurity, ["CRWD", "PANW", "ZS", "OKTA", "FTNT", "S"]), by decide, by decide, rfl⟩
    · exact ⟨rfl, (Sector.Cybersecurity, ["CRWD", "PANW", "ZS", "OKTA", "FTNT", "S"]), by decide, by decide, rfl⟩
  · intro stock hs
    fin_cases hs
    · exact ⟨rfl, (Sector.Semiconductor, ["NVDA", "AMD", "INTC", "TSM", "AVGO"]), by decide, by decide, rfl⟩
    · exact ⟨rfl, (Sector.Semiconductor, ["NVDA", "AMD", "INTC", "TSM", "AVGO"]), by decide, by decide, rfl⟩
    · exact ⟨rfl, (Sector.Semiconductor, ["NVDA", "AMD", "INTC", "TSM", "AVGO"]), by decide, by decide, rfl⟩
    · exact ⟨rfl, (Sector.Semiconductor, ["NVDA", "AMD", "INTC", "TSM", "AVGO"]), by decide, by decide, rfl⟩
    · exact ⟨rfl, (Sector.Semiconductor, ["NVDA", "AMD", "INTC", "TSM", "AVGO"]), by decide, by decide, rfl⟩
  · intro stock hs
    fin_cases hs
    · exact ⟨rfl, (Sector.Energy, ["TSLA", "CEG", "FLNC", "TE", "NEE", "ENPH", "EOSE", "VST", "PLUG", "OKLO", "SMR", "BE", "GEV"]), by decide, by decide, rfl⟩
    · exact ⟨rfl, (Sector.Energy, ["TSLA", "CEG", "FLNC", "TE", "NEE", "ENPH", "EOSE", "VST", "PLUG", "OKLO", "SMR", "BE", "GEV"]), by decide, by decide, rfl⟩
    · exact ⟨rfl, (Sector.Energy, ["TSLA", "CEG", "FLNC", "TE", "NEE", "ENPH", "EOSE", "VST", "PLUG", "OKLO", "SMR", "BE", "GEV"]), by decide, by decide, rfl⟩
    · exact ⟨rfl, (Sector.Energy, ["TSLA", "CEG", "FLNC", "TE", "NEE", "ENPH", "EOSE", "VST", "PLUG", "OKLO", "SMR", "BE", "GEV"]), by decide, by decide, rfl⟩
    · exact ⟨rfl, (Sector.Energy, ["TSLA", "CEG", "FLNC", "TE", "NEE", "ENPH", "EOSE", "VST", "PLUG", "OKLO", "SMR", "BE", "GEV"]), by decide, by decide, rfl⟩
    · exact ⟨rfl, (Sector.Energy, ["TSLA", "CEG", "FLNC", "TE", "NEE", "ENPH", "EOSE", "VST", "PLUG", "OKLO", "SMR", "BE", "GEV"]), by decide, by decide, rfl⟩
    · exact ⟨rfl, (Sector.Energy, ["TSLA", "CEG", "FLNC", "TE", "NEE", "ENPH", "EOSE", "VST", "PLUG", "OKLO", "SMR", "BE", "GEV"]), by decide, by decide, rfl⟩
    · exact ⟨rfl, (Sector.Energy, ["TSLA", "CEG", "FLNC", "TE", "NEE", "ENPH", "EOSE", "VST", "PLUG", "OKLO", "SMR", "BE", "GEV"]), by decide, by decide, rfl⟩
    · exact ⟨rfl, (Sector.Energy, ["TSLA", "CEG", "FLNC", "TE", "NEE", "ENPH", "EOSE", "VST", "PLUG", "OKLO", "SMR", "BE", "GEV"]), by decide, by decide, rfl⟩
    · exact ⟨rfl, (Sector.Energy, ["TSLA", "CEG", "FLNC", "TE", "NEE", "ENPH", "EOSE", "VST", "PLUG", "OKLO", "SMR", "BE", "GEV"]), by decide, by decide, rfl⟩
    · exact ⟨rfl, (Sector.Energy, ["TSLA", "CEG", "FLNC", "TE", "NEE", "ENPH", "EOSE", "VST", "PLUG", "OKLO", "SMR", "BE", "GEV"]), by decide, by decide, rfl⟩
    · exact ⟨rfl, (Sector.Energy, ["TSLA", "CEG", "FLNC", "TE", "NEE", "ENPH", "EOSE", "VST", "PLUG", "OKLO", "SMR", "BE", "GEV"]), by decide, by decide, rfl⟩
    · exact ⟨rfl, (Sector.Energy, ["TSLA", "CEG", "FLNC", "TE", "NEE", "ENPH", "EOSE", "VST", "PLUG", "OKLO", "SMR", "BE", "GEV"]), by decide, by decide, rfl⟩
  · intro stock hs
    fin_cases hs
    · exact ⟨rfl, (Sector.NeoCloud, ["NBIS", "IREN", "CRWV", "APLD"]), by decide, by decide, rfl⟩
    · exact ⟨rfl, (Sector.NeoCloud, ["NBIS", "IREN", "CRWV", "APLD"]), by decide, by decide, rfl⟩
    · exact ⟨rfl, (Sector.NeoCloud, ["NBIS", "IREN", "CRWV", "APLD"]), by decide, by decide, rfl⟩
    · exact ⟨rfl, (Sector.NeoCloud, ["NBIS", "IREN", "CRWV", "APLD"]), by decide, by decide, rfl⟩

/-- Witness for C10 at a concrete session state and the doubly-listed ticker
NVDA (reached through its Mag7 listing). -/
theorem C10_clear_ai_records_witness :
    (clearAIRecords
        { weights := fun _ => SECTOR_CONFIG Sector.Mag7,
          ai_adjusted := fun _ => true,
          stock_insights := [("AAPL", "insight")],
          manual_scores := fun _ => some {} }).ai_adjusted "NVDA" = false
  ∧ ∃ q ∈ SECTORS, "NVDA" ∈ q.2
      ∧ (clearAIRecords
          { weights := fun _ => SECTOR_CONFIG Sector.Mag7,
            ai_adjusted := fun _ => true,
            stock_insights := [("AAPL", "insight")],
            manual_scores := fun _ => some {} }).weights "NVDA" = SECTOR_CONFIG q.1 :=
  (C10_clear_ai_records
      { weights := fun _ => SECTOR_CONFIG Sector.Mag7,
        ai_adjusted := fun _ => true,
        stock_insights := [("AAPL", "insight")],
        manual_scores := fun _ => some {} }).2.2
    (Sector.Mag7, ["AAPL", "MSFT", "GOOGL", "AMZN", "META", "NVDA", "TSLA"])
    (by decide) "NVDA" (by decide)

/-! ## C5: JSON persistence round trip — parser lemmas -/

theorem skipWs_cons_not_ws {c : Char} (h : isWsChar c = false) (cs : List Char) :
    skipWs (c :: cs) = c :: cs := by
  simp [skipWs, h]

theorem skipWs_space (cs : List Char) : skipWs (' ' :: cs) = skipWs cs := by
  simp [skipWs, isWsChar]

theorem isDigit_digitChar (d : ℕ) : isDigit (digitChar d) = true := by
  unfold digitChar
  split <;> rfl

theorem digitVal_digitChar {d : ℕ} (h : d < 10) : digitVal (digitChar d) = d := by
  interval_cases d <;> rfl

theorem isWsChar_eq_false_of_isDigit {c : Char} (h : isDigit c = true) :
    isWsChar c = false := by
  unfold isDigit at h
  split at h <;> first | rfl | exact absurd h (by simp)

theorem ne_minus_of_isDigit {c : Char} (h : isDigit c = true) : c ≠ '-' := by
  intro hc
  subst hc
  exact absurd h (by decide)

theorem ne_quote_of_isDigit {c : Char} (h : isDigit c = true) : c ≠ '"' := by
  intro hc
  subst hc
  exact absurd h (by decide)

theorem natDigits_ne_nil (n : ℕ) : natDigits n ≠ [] := by
  rw [natDigits]
  split_ifs <;> simp

theorem natDigits_all_digit (n : ℕ) : ∀ c ∈ natDigits n, isDigit c = true := by
  induction n using Nat.strong_induction_on with
  | _ n ih =>
    rw [natDigits]
    split_ifs with h
    · simpa using isDigit_digitChar n
    · intro c hc
      rcases List.mem_append.mp hc with hl | hr
      · exact ih (n / 10) (Nat.div_lt_self (by omega) (by omega)) c hl
      · simpa [List.mem_singleton.mp hr] using isDigit_digitChar (n % 10)

theorem takeDigits_append (ds rest : List Char)
    (hds : ∀ c ∈ ds, isDigit c = true)
    (hrest : ∀ c, rest.head? = some c → isDigit c = false) :
    takeDigits (ds ++ rest) = (ds, rest) := by
  induction ds with
  | nil =>
    cases rest with
    | nil => rfl
    | cons c cs => simp [takeDigits, hrest c rfl]
  | cons d ds ih =>
    have hd := hds d (List.mem_cons_self _ _)
    have ih' := ih (fun c hc => hds c (List.mem_cons_of_mem _ hc))
    simp [takeDigits, hd, ih']

theorem digitsVal_append_singleton (ds : List Char) (c : Char) :
    digitsVal (ds ++ [c]) = digitsVal ds * 10 + digitVal c := by
  simp [digitsVal, List.foldl_append]

theorem digitsVal_natDigits (n : ℕ) : digitsVal (natDigits n) = n := by
  induction n using Nat.strong_induction_on with
  | _ n ih =>
    rw [natDigits]
    split_ifs with h
    · simp [digitsVal, digitVal_digitChar h]
    · rw [digitsVal_append_singleton, ih (n / 10) (Nat.div_lt_self (by omega) (by omega)),
        digitVal_digitChar (Nat.mod_lt _ (by omega))]
      omega

theorem parseNat_encode (n : ℕ) (rest : List Char)
    (hrest : ∀ c, rest.head? = some c → isDigit c = false) :
    parseNat (natDigits n ++ rest) = some (n, rest) := by
  unfold parseNat
  rw [takeDigits_append _ _ (natDigits_all_digit n) hrest]
  simp [List.isEmpty_eq_false_iff_exists_mem.mpr, natDigits_ne_nil n,
    digitsVal_natDigits, List.isEmpty_iff]

theorem head?_natDigits_append (n : ℕ) (rest : List Char) :
    ∃ c, (natDigits n ++ rest).head? = some c ∧ isDigit c = true := by
  cases hnd : natDigits n with
  | nil => exact absurd hnd (natDigits_ne_nil n)
  | cons a t =>
    refine ⟨a, by simp, ?_⟩
    exact natDigits_all_digit n a (by rw [hnd]; exact List.mem_cons_self _ _)

theorem parseInt_encode (z : ℤ) (rest : List Char)
    (hrest : ∀ c, rest.head? = some c → isDigit c = false) :
    parseInt (intChars z ++ rest) = some (z, rest) := by
  unfold intChars
  split_ifs with hneg
  · unfold parseInt
    rw [show ('-' :: natDigits z.natAbs) ++ rest = '-' :: (natDigits z.natAbs ++ rest) from rfl]
    rw [if_pos (show ('-' :: (natDigits z.natAbs ++ rest)).head? = some '-' by simp)]
    simp only [List.tail_cons]
    rw [parseNat_encode _ _ hrest]
    simp only [Option.map_some', Option.some.injEq, Prod.mk.injEq, and_true]
    omega
  · obtain ⟨c, hc, hdig⟩ := head?_natDigits_append z.toNat rest
    unfold parseInt
    rw [hc, if_neg (by simp [ne_minus_of_isDigit hdig])]
    rw [parseNat_encode _ _ hrest]
    simp only [Option.map_some', Option.some.injEq, Prod.mk.injEq, and_true]
    omega

theorem takeKeyBody_encode (s rest : List Char)
    (hs : ∀ c ∈ s, c ≠ '"' ∧ c ≠ '\\') :
    takeKeyBody (s ++ '"' :: rest) = some (s, rest) := by
  induction s with
  | nil => simp [takeKeyBody]
  | cons c cs ih =>
    have hc := hs c (List.mem_cons_self _ _)
    have ih' := ih (fun x hx => hs x (List.mem_cons_of_mem _ hx))
    simp [takeKeyBody, hc.1, hc.2, ih']

theorem data_valid_of_validKey {k : String}
    (hk : ∀ c ∈ k.data, validKeyChar c = true) :
    ∀ c ∈ k.data, c ≠ '"' ∧ c ≠ '\\' := by
  intro c hc
  have := hk c hc
  simp only [validKeyChar, Bool.and_eq_true, bne_iff_ne, ne_eq] at this
  exact ⟨this.1.2, this.2⟩

theorem parseKey_encode (k : String) (rest : List Char)
    (hk : ∀ c ∈ k.data, validKeyChar c = true) :
    parseKey (encKey k ++ rest) = some (k, rest) := by
  have hstream : encKey k ++ rest = '"' :: (k.data ++ '"' :: rest) := by
    simp [encKey]
  rw [hstream]
  simp only [parseKey, if_pos rfl]
  rw [takeKeyBody_encode _ _ (data_valid_of_validKey hk)]
  simp

theorem skipWs_intChars (z : ℤ) (rest : List Char) :
    skipWs (intChars z ++ rest) = intChars z ++ rest := by
  unfold intChars
  split_ifs with hneg
  · simp only [List.cons_append]
    exact skipWs_cons_not_ws (by decide) _
  · obtain ⟨c, hc, hdig⟩ := head?_natDigits_append z.toNat rest
    cases hnd : natDigits z.toNat with
    | nil => exact absurd hnd (natDigits_ne_nil _)
    | cons a t =>
      rw [hnd] at hc
      simp only [List.cons_append, List.head?_cons, Option.some.injEq] at hc
      subst hc
      simp only [List.cons_append]
      exact skipWs_cons_not_ws (isWsChar_eq_false_of_isDigit hdig) _

theorem parseRecord_encode (e : ManualEntry) (rest : List Char) :
    parseRecord (encRecord e ++ rest) = some (e, rest) := by
  have h1 : encRecord e ++ rest =
      '{' :: ('"' :: 'P' :: 'o' :: 'l' :: 'i' :: 'c' :: 'y' :: '"' :: ':' :: ' ' ::
        (intChars e.Policy ++ (',' :: ' ' :: '"' :: 'M' :: 'o' :: 'a' :: 't' :: '"' :: ':' :: ' ' ::
          (intChars e.Moat ++ ('}' :: rest))))) := by
    simp [encRecord, encKey]
  rw [h1]
  simp [parseRecord, expectChar, parseKey, takeKeyBody, skipWs, isWsChar, isDigit,
    skipWs_intChars, parseInt_encode, Option.bind]

theorem parseRecord_encode' (e : ManualEntry) (rest : List Char) :
    parseRecord ('{' :: (encKey "Policy" ++ ':' :: ' ' :: (intChars e.Policy ++
      ',' :: ' ' :: (encKey "Moat" ++ ':' :: ' ' :: (intChars e.Moat ++ '}' :: rest)))))
      = some (e, rest) := by
  have h := parseRecord_encode e rest
  have hs : encRecord e ++ rest = '{' :: (encKey "Policy" ++ ':' :: ' ' ::
      (intChars e.Policy ++ ',' :: ' ' :: (encKey "Moat" ++ ':' :: ' ' ::
        (intChars e.Moat ++ '}' :: rest)))) := by
    simp [encRecord, List.append_assoc]
  rwa [hs] at h

theorem encEntry_eq (p : String × ManualEntry) :
    encEntry p = '"' :: (p.1.data ++ ('"' :: ':' :: ' ' :: encRecord p.2)) := by
  simp [encEntry, encKey]

theorem skipWs_encEntries_append (m : ManualMap) (hm : m ≠ []) (r : List Char) :
    skipWs (encEntries m ++ r) = encEntries m ++ r := by
  cases m with
  | nil => exact absurd rfl hm
  | cons p t =>
    cases t with
    | nil =>
      simp only [encEntries, encEntry_eq, List.cons_append]
      exact skipWs_cons_not_ws (by decide) _
    | cons q t' =>
      simp only [encEntries, encEntry_eq, List.cons_append, List.append_assoc]
      exact skipWs_cons_not_ws (by decide) _

theorem skipWs_encRecord (e : ManualEntry) (r : List Char) :
    skipWs (encRecord e ++ r) = encRecord e ++ r := by
  simp only [encRecord, List.cons_append]
  exact skipWs_cons_not_ws (by decide) _

theorem parseEntriesLoop_encode (m : ManualMap) :
    ∀ (fuel : ℕ), m ≠ [] → m.length ≤ fuel →
    (∀ p ∈ m, ∀ c ∈ p.1.data, validKeyChar c = true) →
    ∀ (cs rest : List Char), skipWs cs = encEntries m ++ '}' :: rest →
    parseEntriesLoop fuel cs = some (m, rest) := by
  induction m with
  | nil => intro fuel h; exact absurd rfl h
  | cons p t ih =>
    intro fuel _ hlen hkeys cs rest hcs
    cases fuel with
    | zero => simp at hlen
    | succ f =>
      have hk1 : ∀ c ∈ p.1.data, validKeyChar c = true :=
        hkeys p (List.mem_cons_self _ _)
      have hpk : ∀ r, parseKey (encKey p.1 ++ r) = some (p.1, r) :=
        fun r => parseKey_encode p.1 r hk1
      cases t with
      | nil =>
        have hstream : encEntries [p] ++ '}' :: rest =
            encKey p.1 ++ (':' :: ' ' :: (encRecord p.2 ++ '}' :: rest)) := by
          simp [encEntries, encEntry, List.append_assoc]
        simp only [parseEntriesLoop, hcs, hstream, hpk]
        simp [expectChar, skipWs, isWsChar, skipWs_encRecord, parseRecord_encode,
          parseRecord_encode']
      | cons q t' =>
        have hstream : encEntries (p :: q :: t') ++ '}' :: rest =
            encKey p.1 ++ (':' :: ' ' :: (encRecord p.2 ++
              (',' :: ' ' :: (encEntries (q :: t') ++ '}' :: rest)))) := by
          simp [encEntries, encEntry, List.append_assoc]
        have hrec := ih f (by simp) (by simp at hlen ⊢; omega)
          (fun x hx => hkeys x (List.mem_cons_of_mem _ hx))
          (' ' :: (encEntries (q :: t') ++ '}' :: rest)) rest
          (by rw [skipWs_space]; exact skipWs_encEntries_append _ (by simp) _)
        simp only [parseEntriesLoop, hcs, hstream, hpk]
        simp [expectChar, skipWs, isWsChar, skipWs_encRecord, parseRecord_encode,
          parseRecord_encode', hrec]

theorem length_le_encEntries (m : ManualMap) : m.length ≤ (encEntries m).length := by
  induction m with
  | nil => simp [encEntries]
  | cons p t ih =>
    cases t with
    | nil => simp [encEntries, encEntry_eq]
    | cons q t' =>
      have h1 : 1 ≤ (encEntry p).length := by simp [encEntry_eq]
      simp only [encEntries, List.length_append, List.length_cons] at ih ⊢
      omega

theorem parseManualMap_dumps (m : ManualMap)
    (hkeys : ∀ p ∈ m, ∀ c ∈ p.1.data, validKeyChar c = true) :
    parseManualMap (json_dumps_manual m).data = some (m, []) := by
  have hdata : (json_dumps_manual m).data = '{' :: (encEntries m ++ ['}']) := rfl
  rw [hdata]
  have hexp : expectChar '{' (skipWs ('{' :: (encEntries m ++ ['}'])))
      = some (encEntries m ++ ['}']) := by
    rw [skipWs_cons_not_ws (by decide) _]
    simp [expectChar]
  unfold parseManualMap
  rw [hexp]
  show (if (skipWs (encEntries m ++ ['}'])).head? = some '}' then
          some ([], (skipWs (encEntries m ++ ['}'])).tail)
        else parseEntriesLoop ((skipWs (encEntries m ++ ['}'])).length + 1)
          (skipWs (encEntries m ++ ['}']))) = some (m, [])
  cases m with
  | nil => simp [encEntries, skipWs, isWsChar]
  | cons p t =>
    have hskip : skipWs (encEntries (p :: t) ++ ['}']) = encEntries (p :: t) ++ ['}'] :=
      skipWs_encEntries_append _ (by simp) _
    have hhead : (encEntries (p :: t) ++ ['}']).head? = some '"' := by
      cases t <;> simp [encEntries, encEntry_eq]
    rw [hskip, hhead, if_neg (by simp)]
    exact parseEntriesLoop_encode (p :: t) _ (by simp)
      (by
        have := length_le_encEntries (p :: t)
        simp only [List.length_append, List.length_cons] at this ⊢
        omega)
      hkeys _ [] hskip

theorem json_loads_dumps (m : ManualMap)
    (hkeys : ∀ p ∈ m, ∀ c ∈ p.1.data, validKeyChar c = true) :
    json_loads_manual (json_dumps_manual m) = some m := by
  unfold json_loads_manual
  rw [parseManualMap_dumps m hkeys]
  simp [skipWs]

/-- C5: saving a manual-scores mapping with `save_to_storage` under a key
and reading the same key back with `load_from_storage` reproduces exactly
the same mapping.  The mapping's keys are ticker symbols (characters that
`json.dumps` emits unescaped) and, being the keys of a Python dict, are
distinct. -/
theorem C5_save_load_round_trip (key : String) (m : ManualMap) (st : Storage)
    (dflt : Option ManualMap)
    (hkeys : ∀ p ∈ m, ∀ c ∈ p.1.data, validKeyChar c = true)
    (hnodup : (m.map Prod.fst).Nodup) :
    load_from_storage key dflt (save_to_storage key m st) = some m := by
  unfold load_from_storage save_to_storage setKey
  rw [if_pos rfl]
  show (match json_loads_manual (json_dumps_manual m) with
        | some m => some m
        | none => dflt) = some m
  rw [json_loads_dumps m hkeys]

/-- Witness for C5 with two tickers and an unrelated pre-existing storage
slot. -/
theorem C5_save_load_round_trip_witness :
    load_from_storage "manual_scores" none
      (save_to_storage "manual_scores"
        [("AAPL", ⟨50, 60⟩), ("MSFT", ⟨0, 100⟩)]
        (fun _ => none)) = some [("AAPL", ⟨50, 60⟩), ("MSFT", ⟨0, 100⟩)] :=
  C5_save_load_round_trip "manual_scores"
    [("AAPL", ⟨50, 60⟩), ("MSFT", ⟨0, 100⟩)] (fun _ => none) none
    (by decide) (by decide)
